import Mathlib

/-!
Verification of the roster-email extraction pipeline
(`src/hilabs_hackathon_submission.py`) against its natural-language
specification.

The Python source is shallowly embedded below.  Pure helpers become Lean
functions; the per-email batch loop becomes explicit recursion threading the
output-file contents; fallible collaborators (the email-to-text function
`load_eml_text`, which can raise on an unreadable file) are passed in as
`Except`-valued parameters.  The standard-library collaborator `json.loads`
is modelled by an executable strict JSON parser (`jsonLoadsChars`); JSON
numbers are modelled as integers (a fractional literal is treated as a parse
failure, which the surrounding code converts to the empty record either way).
-/

/-- Python values produced by `json.loads`: null, booleans, numbers
(modelled as integers), strings, lists and dicts (association lists;
lookups take the last binding, matching CPython dict construction). -/
inductive Json where
  | null : Json
  | bool (b : Bool) : Json
  | num (n : Int) : Json
  | str (s : String) : Json
  | arr (elems : List Json) : Json
  | obj (fields : List (String × Json)) : Json

/-- Test for `isinstance(v, dict)`. -/
def Json.isObjB : Json → Bool
  | .obj _ => true
  | _ => false

/-- The single-quote character, written via its code point. -/
def squote : Char := Char.ofNat 39

/-- JSON insignificant whitespace, as accepted by `json.loads`. -/
def isWs (c : Char) : Bool :=
  c == ' ' || c == '\t' || c == '\n' || c == '\r'

/-- Skip JSON whitespace. -/
def skipWs (cs : List Char) : List Char := cs.dropWhile isWs

/-- Test for a hexadecimal digit. -/
def isHexDig (c : Char) : Bool :=
  c.isDigit || ('a' ≤ c && c ≤ 'f') || ('A' ≤ c && c ≤ 'F')

/-- Numeric value of a hexadecimal digit. -/
def hexVal (c : Char) : Nat :=
  if c.isDigit then c.toNat - 48
  else if 'a' ≤ c && c ≤ 'f' then c.toNat - 87
  else if 'A' ≤ c && c ≤ 'F' then c.toNat - 55
  else 0

/-- Single-character JSON string escapes. -/
def escMap (e : Char) : Option Char :=
  if e = '"' then some '"'
  else if e = '\\' then some '\\'
  else if e = '/' then some '/'
  else if e = 'n' then some '\n'
  else if e = 't' then some '\t'
  else if e = 'r' then some '\r'
  else if e = 'b' then some (Char.ofNat 8)
  else if e = 'f' then some (Char.ofNat 12)
  else none

/-- Parse the body of a JSON string literal (after the opening quote),
returning the decoded characters and the remaining input. -/
def parseStrChars : List Char → Option (List Char × List Char)
  | [] => none
  | c :: rest =>
    if c = '"' then some ([], rest)
    else if c = '\\' then
      match rest with
      | [] => none
      | e :: rest2 =>
        if e = 'u' then
          match rest2 with
          | h1 :: h2 :: h3 :: h4 :: rest3 =>
            if isHexDig h1 && isHexDig h2 && isHexDig h3 && isHexDig h4 then
              (parseStrChars rest3).map
                (fun q =>
                  (Char.ofNat (hexVal h1 * 4096 + hexVal h2 * 256 + hexVal h3 * 16 + hexVal h4)
                    :: q.1, q.2))
            else none
          | _ => none
        else
          match escMap e with
          | none => none
          | some ch => (parseStrChars rest2).map (fun q => (ch :: q.1, q.2))
    else (parseStrChars rest).map (fun q => (c :: q.1, q.2))

/-- Match an expected literal character sequence. -/
def expectChars : List Char → List Char → Option (List Char)
  | [], cs => some cs
  | _ :: _, [] => none
  | p :: ps, c :: cs => if c = p then expectChars ps cs else none

/-- Decimal digits to a natural number. -/
def digitsToNat (ds : List Char) : Nat :=
  ds.foldl (fun a c => a * 10 + (c.toNat - 48)) 0

/-- Parse a nonempty run of decimal digits. -/
def parseDigits (cs : List Char) : Option (Nat × List Char) :=
  let ds := cs.takeWhile Char.isDigit
  if ds.isEmpty then none
  else some (digitsToNat ds, cs.dropWhile Char.isDigit)

/-- Parse a JSON number token (integers; an optional leading minus sign). -/
def parseNumTok : List Char → Option (Json × List Char)
  | [] => none
  | c :: rest =>
    if c = '-' then (parseDigits rest).map (fun q => (Json.num (-(q.1 : Int)), q.2))
    else (parseDigits (c :: rest)).map (fun q => (Json.num (q.1 : Int), q.2))

/-- One level of the JSON value parser.  `pm` and `pe` parse object members
and array elements at the next-lower fuel level. -/
def pValStep (pm : List Char → Option (List (String × Json) × List Char))
    (pe : List Char → Option (List Json × List Char))
    (cs : List Char) : Option (Json × List Char) :=
  match skipWs cs with
  | [] => none
  | c :: rest =>
    if c = '{' then
      match skipWs rest with
      | [] => none
      | d :: r2 =>
        if d = '}' then some (Json.obj [], r2)
        else (pm (d :: r2)).map (fun q => (Json.obj q.1, q.2))
    else if c = '[' then
      match skipWs rest with
      | [] => none
      | d :: r2 =>
        if d = ']' then some (Json.arr [], r2)
        else (pe (d :: r2)).map (fun q => (Json.arr q.1, q.2))
    else if c = '"' then
      (parseStrChars rest).map (fun q => (Json.str (String.mk q.1), q.2))
    else if c = 't' then
      (expectChars ['r', 'u', 'e'] rest).map (fun r => (Json.bool true, r))
    else if c = 'f' then
      (expectChars ['a', 'l', 's', 'e'] rest).map (fun r => (Json.bool false, r))
    else if c = 'n' then
      (expectChars ['u', 'l', 'l'] rest).map (fun r => (Json.null, r))
    else if c = '-' || c.isDigit then
      parseNumTok (c :: rest)
    else none

/-- One level of the object-member parser: a quoted key, a colon, a value,
then either a comma and further members or a closing brace. -/
def pMembersStep (pv : List Char → Option (Json × List Char))
    (pm : List Char → Option (List (String × Json) × List Char))
    (cs : List Char) : Option (List (String × Json) × List Char) :=
  match skipWs cs with
  | [] => none
  | c :: rest =>
    if c = '"' then
      match parseStrChars rest with
      | none => none
      | some (kcs, r1) =>
        match skipWs r1 with
        | [] => none
        | d :: r2 =>
          if d = ':' then
            match pv r2 with
            | none => none
            | some (v, r3) =>
              match skipWs r3 with
              | [] => none
              | d2 :: r4 =>
                if d2 = ',' then
                  (pm r4).map (fun q => ((String.mk kcs, v) :: q.1, q.2))
                else if d2 = '}' then some ([(String.mk kcs, v)], r4)
                else none
          else none
    else none

/-- One level of the array-element parser. -/
def pElemsStep (pv : List Char → Option (Json × List Char))
    (pe : List Char → Option (List Json × List Char))
    (cs : List Char) : Option (List Json × List Char) :=
  match pv cs with
  | none => none
  | some (v, r1) =>
    match skipWs r1 with
    | [] => none
    | c :: r2 =>
      if c = ',' then (pe r2).map (fun q => (v :: q.1, q.2))
      else if c = ']' then some ([v], r2)
      else none

/-- Fuel-indexed family of the three mutually recursive JSON parsers
(values, object members, array elements). -/
def parsers : Nat →
    ((List Char → Option (Json × List Char)) ×
     (List Char → Option (List (String × Json) × List Char)) ×
     (List Char → Option (List Json × List Char)))
  | 0 => (fun _ => none, fun _ => none, fun _ => none)
  | f + 1 =>
    let P := parsers f
    (pValStep P.2.1 P.2.2, pMembersStep P.1 P.2.1, pElemsStep P.1 P.2.2)

/-- Model of `json.loads` on a character list: parse one value and require
only whitespace to remain; `none` models a raised `JSONDecodeError`. -/
def jsonLoadsChars (cs : List Char) : Option Json :=
  match (parsers (cs.length + 1)).1 cs with
  | some (v, rest) => if (skipWs rest).isEmpty then some v else none
  | none => none

/-- Model of Python `str.find`: index of the first occurrence of a
character, `none` standing for the return value `-1`. -/
def pyFind (c : Char) : List Char → Option Nat
  | [] => none
  | x :: xs => if x = c then some 0 else (pyFind c xs).map (· + 1)

/-- The single-quote repair pass of `extract_with_llm`:
`raw.replace("'", '"')`. -/
def replaceSQuotes (cs : List Char) : List Char :=
  cs.map (fun c => if c = squote then '"' else c)

/-- The sentinel value for unresolved fields. -/
def sentinel : String := "Information not found"

/-- Parse-with-repair on the extracted brace span, embedding lines 109-118
of `extract_with_llm`: strict parse (kept only if it is a dict), then the
single-quote repair pass (whose successful result is returned with no dict
check), then the empty dict. -/
def parseRawSpan (raw : List Char) : Json :=
  match jsonLoadsChars raw with
  | some v => if v.isObjB then v else Json.obj []
  | none =>
    match jsonLoadsChars (replaceSQuotes raw) with
    | some v => v
    | none => Json.obj []

/-- The parsing stage of `extract_with_llm` (lines 102-118): locate the
first brace pair in the raw completion text, give up (empty dict) if it is
absent or inverted, and otherwise parse the enclosed span with repair. -/
def parseLlmOutput (out : String) : Json :=
  match pyFind '{' out.data, pyFind '}' out.data with
  | some s, some e =>
    if e ≤ s then Json.obj []
    else parseRawSpan ((out.data.drop s).take (e + 1 - s))
  | _, _ => Json.obj []

/-- The schema literal of `make_prompt`, in source order. -/
def schemaList : List (String × String) :=
  [("transaction_type", "Add | Update | Term | Information not found"),
   ("transaction_attribute", "string or \x27Information not found\x27"),
   ("effective_date", "MM/DD/YYYY or \x27Information not found\x27"),
   ("term_date", "MM/DD/YYYY or \x27Information not found\x27"),
   ("term_reason", "string or \x27Information not found\x27"),
   ("provider_name",
    "string or \x27Information not found\x27 Only output the name not their designation"),
   ("provider_npi", "digits or \x27Information not found\x27"),
   ("provider_specialty", "string or \x27Information not found\x27"),
   ("state_license", "string or \x27Information not found\x27"),
   ("organization_name", "string or \x27Information not found\x27"),
   ("tin", "digits or \x27Information not found\x27(It is the Tax Id No.)"),
   ("group_npi", "digits or \x27Information not found\x27 (It is NPI of Default Provider)"),
   ("complete_address", "string or \x27Information not found\x27"),
   ("phone_number", "digits or \x27Information not found\x27"),
   ("fax_number", "digits or \x27Information not found\x27"),
   ("ppg_id", "string (single or comma-separated) or \x27Information not found\x27"),
   ("line_of_business",
    "\x27Medicare\x27 or \x27Commercial\x27 or \x27Medical\x27 or \x27Information not found\x27  Only these strings should be the output")]

/-- Model of `json.dumps(schema, indent=2)` for a flat string-to-string
dict whose keys and values need no escaping. -/
def jsonDumpsIndent2 (l : List (String × String)) : String :=
  "\x7b\n" ++
    String.intercalate ",\n" (l.map (fun kv => "  \"" ++ kv.1 ++ "\": \"" ++ kv.2 ++ "\"")) ++
    "\n\x7d"

/-- The serialized schema embedded in the prompt. -/
def schemaText : String := jsonDumpsIndent2 schemaList

/-- Prompt text before the serialized schema. -/
def promptA : String :=
  "\nYou are a STRUCTURED-EXTRACTION model. Extract values from the EMAIL below and RETURN STRICT JSON ONLY (no commentary).\nIf a value cannot be found, set it exactly to \"Information not found\".\nDates must be normalized to MM/DD/YYYY when possible.\nReturn a JSON object with the following keys and value formats (exact keys must be used):\n\n"

/-- Prompt text between the schema and the email text. -/
def promptB : String := "\n\nEmail:\n\"\"\""

/-- Prompt text after the email text. -/
def promptC : String :=
  "\"\"\"\n\nIMPORTANT: Return only valid JSON (a single JSON object) and nothing else.\n"

/-- Embedding of `make_prompt`: the f-string of lines 83-95. -/
def makePrompt (emailText : String) : String :=
  promptA ++ schemaText ++ promptB ++ emailText ++ promptC

/-- Embedding of `extract_with_llm` with the text-completion collaborator
(`pipe`) passed as a function parameter. -/
def extractWithLlm (pipe : String → String) (emailText : String) : Json :=
  parseLlmOutput (pipe (makePrompt emailText))

/-- The `TEMPLATE_TO_KEY` dict literal (lines 121-139), as an association
list in source order. -/
def TEMPLATE_TO_KEY : List (String × String) :=
  [("Transaction Type (Add/Update/Term)", "transaction_type"),
   ("Transaction Attribute", "transaction_attribute"),
   ("Effective Date", "effective_date"),
   ("Term Date", "term_date"),
   ("Term Reason", "term_reason"),
   ("Provider Name", "provider_name"),
   ("Provider NPI", "provider_npi"),
   ("Provider Specialty", "provider_specialty"),
   ("State License", "state_license"),
   ("Organization Name", "organization_name"),
   ("TIN", "tin"),
   ("Group NPI", "group_npi"),
   ("Complete Address", "complete_address"),
   ("Phone Number", "phone_number"),
   ("Fax Number", "fax_number"),
   ("PPG ID", "ppg_id"),
   ("Line Of Business (Medicare/Commercial/Medical)", "line_of_business")]

/-- Python `dict.get`: the value of the last binding of a key, if any
(CPython keeps the latest assignment to a key). -/
def dictGet (l : List (String × α)) (k : String) : Option α :=
  (l.reverse.find? (fun p => p.1 == k)).map (·.2)

/-- Python `dict.get` with a default. -/
def dictGetD (l : List (String × α)) (k : String) (d : α) : α :=
  (dictGet l k).getD d

/-- The key set iterated by the normalization loop,
`set(TEMPLATE_TO_KEY.values())`, kept in first-occurrence order. -/
def schemaKeys : List String := (TEMPLATE_TO_KEY.map Prod.snd).eraseDups

/-- Python `str.strip()` whitespace. -/
def isPySpace (c : Char) : Bool :=
  c == ' ' || c == '\t' || c == '\n' || c == '\r' ||
    c == Char.ofNat 11 || c == Char.ofNat 12

/-- Strip whitespace from both ends of a character list. -/
def stripChars (cs : List Char) : List Char :=
  ((cs.dropWhile isPySpace).reverse.dropWhile isPySpace).reverse

/-- Model of Python `str.strip()`. -/
def pystrip (s : String) : String := String.mk (stripChars s.data)

/-- Decimal digit characters. -/
def digitChar (d : Nat) : Char := Char.ofNat (48 + d)

/-- Decimal rendering of a natural number. -/
def natToDec (n : Nat) : List Char :=
  if _h : n < 10 then [digitChar n]
  else natToDec (n / 10) ++ [digitChar (n % 10)]
  decreasing_by exact Nat.div_lt_self (by omega) (by omega)

/-- Decimal rendering of an integer, as Python `str` prints it. -/
def intToDecChars : Int → List Char
  | .ofNat m => natToDec m
  | .negSucc m => '-' :: natToDec (m + 1)

mutual

/-- Model of Python `repr` on parsed JSON values (string escaping inside
nested containers is not modelled; no claim depends on it). -/
def pyRepr : Json → String
  | .null => "None"
  | .bool b => if b then "True" else "False"
  | .num n => String.mk (intToDecChars n)
  | .str s => String.mk (squote :: s.data ++ [squote])
  | .arr l => "[" ++ String.intercalate ", " (pyReprList l) ++ "]"
  | .obj fs => "\x7b" ++ String.intercalate ", " (pyReprFields fs) ++ "\x7d"

/-- `repr` of list elements. -/
def pyReprList : List Json → List String
  | [] => []
  | v :: vs => pyRepr v :: pyReprList vs

/-- `repr` of dict items. -/
def pyReprFields : List (String × Json) → List String
  | [] => []
  | (k, v) :: fs =>
    (String.mk (squote :: k.data ++ [squote]) ++ ": " ++ pyRepr v) :: pyReprFields fs

end

/-- Model of Python `str` on parsed JSON values: a string is itself,
anything else prints as its `repr`. -/
def pyStr : Json → String
  | .str s => s
  | v => pyRepr v

/-- The candidate-record lookup `extracted.get(k) if isinstance(extracted,
dict) else None` of line 166. -/
def getV (extracted : Json) (k : String) : Option Json :=
  match extracted with
  | .obj fields => dictGet fields k
  | _ => none

/-- The per-field normalization of lines 166-174: missing, null and
blank-string values become the sentinel, list values are joined with a
comma, anything else is stringified and stripped. -/
def normValue (extracted : Json) (k : String) : String :=
  match getV extracted k with
  | none => sentinel
  | some Json.null => sentinel
  | some (Json.str s) => if pystrip s = "" then sentinel else pystrip s
  | some (Json.arr l) => String.intercalate ", " (l.map pyStr)
  | some w => pystrip (pyStr w)

/-- The normalization loop of lines 163-174: one entry per schema key. -/
def normalizeRecord (extracted : Json) : List (String × String) :=
  schemaKeys.map (fun k => (k, normValue extracted k))

/-- Row construction from the precomputed `keys_in_order` (lines 177-183):
unknown headers give the sentinel, known ones look up the normalized
record. -/
def buildRowKeys (finalRec : List (String × String)) (keysInOrder : List (Option String)) :
    List String :=
  keysInOrder.map (fun
    | none => sentinel
    | some k => dictGetD finalRec k sentinel)

/-- The Row Mapper: `keys_in_order` from the template headers (line 155)
followed by the row loop. -/
def buildRow (finalRec : List (String × String)) (headers : List String) : List String :=
  buildRowKeys finalRec (headers.map (fun h => dictGet TEMPLATE_TO_KEY h))

/-- A workbook, modelled as its ordered sequence of rows. -/
abbrev Workbook : Type := List (List String)

/-- Model of `ws.delete_rows(0)` (line 145).  openpyxl rows are 1-indexed;
`delete_rows(0, 1)` first removes the cells of row 0 — of which there are
none — and then shifts every remaining cell up by one index, so the ordered
sequence of rows is unchanged. -/
def deleteRows0 (wb : Workbook) : Workbook := wb

/-- Embedding of `append_row_to_template` (lines 142-147): reload the
template workbook from `template_path`, delete row 0, append the new row,
and save the result as the new contents of `out_path`.  The returned
workbook is the new output-file contents; note that it is built from the
template alone, not from the previous output-file contents. -/
def appendRowToTemplate (template : Workbook) (rowValues : List String) : Workbook :=
  deleteRows0 template ++ [rowValues]

/-- The per-email loop of `process_eml_files` (lines 160-186).  `load` is
the email-to-text collaborator (`load_eml_text`), which can fail
(`Except.error` models a raised exception); the loop body has no exception
handler, so a failure propagates.  The accumulator is the current contents
of the output file. -/
def processLoop (load : String → Except String String) (pipe : String → String)
    (template : Workbook) (keysInOrder : List (Option String)) :
    Workbook → List String → Except String Workbook
  | out, [] => Except.ok out
  | _, p :: rest =>
    match load p with
    | Except.error e => Except.error e
    | Except.ok emailText =>
      let extracted := extractWithLlm pipe emailText
      let finalRec := normalizeRecord extracted
      let row := buildRowKeys finalRec keysInOrder
      processLoop load pipe template keysInOrder (appendRowToTemplate template row) rest

/-- Embedding of `process_eml_files` (lines 150-186): read the headers from
the template's first row, compute `keys_in_order`, save an initial copy of
the template to the output path, then run the per-email loop.  The result
is the final contents of the output file. -/
def processEmlFiles (load : String → Except String String) (pipe : String → String)
    (template : Workbook) (emlPaths : List String) : Except String Workbook :=
  let headers := template.headD []
  let keysInOrder := headers.map (fun h => dictGet TEMPLATE_TO_KEY h)
  processLoop load pipe template keysInOrder template emlPaths

/-- The batching loop of `main` (lines 246-250): the path list is split
into chunks of `batch` (`eml_paths[i:i+batch]`) and `process_eml_files` is
called once per chunk. -/
def mainBatches (load : String → Except String String) (pipe : String → String)
    (template : Workbook) (batch : Nat) (emlPaths : List String) :
    Except String (List Workbook) :=
  (emlPaths.toChunks batch).mapM (processEmlFiles load pipe template)

/-- The input argument of `main`: a directory (with its entry names, in
filesystem enumeration order), a regular file, or anything else. -/
inductive PathInput where
  | dir (entries : List String)
  | file (name : String)
  | other

/-- Model of `pathlib.Path.suffix`: the final dot-segment of the name,
empty when the name has no dot, starts with its only dot, or ends with a
dot. -/
def pySuffix (name : String) : String :=
  match pyFind '.' name.data.reverse with
  | none => ""
  | some j =>
    let i := name.length - 1 - j
    if 0 < i ∧ i < name.length - 1 then String.mk (name.data.drop i) else ""

/-- Model of Python `str.lower` (ASCII case folding). -/
def pyLower (s : String) : String := String.mk (s.data.map Char.toLower)

/-- Lexicographic code-point comparison of character lists, as Python
compares path strings. -/
def listLeChar : List Char → List Char → Bool
  | [], _ => true
  | _ :: _, [] => false
  | a :: as, b :: bs =>
    if a.toNat < b.toNat then true
    else if b.toNat < a.toNat then false
    else listLeChar as bs

/-- Lexicographic comparison of strings by code points. -/
def strLe (a b : String) : Bool := listLeChar a.data b.data

/-- The matched and sorted directory listing
`sorted(list(eml_input.glob("*.eml")))` of line 228: `*.eml` matches names
ending in `.eml` (case-sensitively, per fnmatch on POSIX), and the matches
are sorted lexicographically. -/
def sortedEmlMatches (entries : List String) : List String :=
  List.insertionSort (fun a b => strLe a b = true)
    (entries.filter (fun n => ".eml".data.isSuffixOf n.data))

/-- The source collection of `main` (lines 227-235): a directory yields its
sorted `*.eml` matches (an error if there are none), a single file is
accepted only when its suffix lowercases to `.eml`, and anything else is an
error. -/
def collectEmlPaths : PathInput → Except String (List String)
  | .dir entries =>
    let ps := sortedEmlMatches entries
    if ps.isEmpty then Except.error "No .eml files found in input."
    else Except.ok ps
  | .file name =>
    if pyLower (pySuffix name) = ".eml" then Except.ok [name]
    else Except.error "Input must be an .eml file or a folder containing .eml files."
  | .other =>
    Except.error "Input must be an .eml file or a folder containing .eml files."


/-- The cell emitted for one header label: unknown headers degrade to the
sentinel, known ones look up the normalized record (with the sentinel as the
`dict.get` default). -/
def cellFor (finalRec : List (String × String)) (hd : String) : String :=
  match dictGet TEMPLATE_TO_KEY hd with
  | none => sentinel
  | some k => dictGetD finalRec k sentinel

/-- The fully-sentinel normalized record, in schema-key order. -/
def sentinelRecord : List (String × String) := schemaKeys.map (fun k => (k, sentinel))

/-- The concrete normalized record of the spec's row-alignment example:
`provider_name = "Jane Doe"`, `tin = "123456789"`, all other schema fields
sentinel. -/
def janeRecord : List (String × String) :=
  schemaKeys.map (fun k =>
    (k, if k == "provider_name" then "Jane Doe"
        else if k == "tin" then "123456789" else sentinel))

/-- Text of `make_prompt` up to the sentinel occurrence. -/
def promptA1 : String :=
  "\nYou are a STRUCTURED-EXTRACTION model. Extract values from the EMAIL below and RETURN STRICT JSON ONLY (no commentary).\nIf a value cannot be found, set it exactly to \""

/-- Text of `make_prompt` between the sentinel occurrence and the schema. -/
def promptA2 : String :=
  "\".\nDates must be normalized to MM/DD/YYYY when possible.\nReturn a JSON object with the following keys and value formats (exact keys must be used):\n\n"

theorem promptA_split : promptA = promptA1 ++ sentinel ++ promptA2 := by rfl

/-- C5: for every CandidateRecord, the normalized record's key sequence is
exactly the schema key list — the 17 distinct values of `TEMPLATE_TO_KEY`,
which also coincide with the prompt schema's keys — so no schema key is
missing and no extraneous key survives. -/
theorem spec_c5_key_set (c : Json) :
    (normalizeRecord c).map Prod.fst = schemaKeys ∧
      schemaKeys.length = 17 ∧ schemaKeys = schemaList.map Prod.fst := by
  refine ⟨?_, by rfl, by rfl⟩
  have : (Prod.fst ∘ fun k => (k, normValue c k)) = id := by
    funext k
    rfl
  simp [normalizeRecord, List.map_map, this]

/-- Witness for C5 at a concrete record with extraneous keys. -/
theorem spec_c5_key_set_witness :
    (normalizeRecord (Json.obj [("bogus", Json.num 3)])).map Prod.fst = schemaKeys :=
  (spec_c5_key_set (Json.obj [("bogus", Json.num 3)])).1

/-- C8: normalizing the fully-sentinel record yields the same record
unchanged (as a mapping: each schema field maps to the sentinel before and
after). -/
theorem spec_c8_sentinel_fixpoint :
    normalizeRecord (Json.obj (sentinelRecord.map (fun kv => (kv.1, Json.str kv.2)))) =
      sentinelRecord := by rfl

/-- C6: the Row Mapper emits one cell per header, in header order: the row
length equals the header count, the cell at every index is determined by
that index's header alone (sentinel when the header is not in
`TEMPLATE_TO_KEY`), and the spec's concrete example holds. -/
theorem spec_c6_row_alignment (finalRec : List (String × String)) (headers : List String) :
    (buildRow finalRec headers).length = headers.length ∧
      (∀ i : Nat, (buildRow finalRec headers)[i]? = headers[i]?.map (cellFor finalRec)) ∧
      buildRow janeRecord ["Provider Name", "Unknown Col", "TIN"] =
        ["Jane Doe", "Information not found", "123456789"] := by
  refine ⟨by simp [buildRow, buildRowKeys], fun i => ?_, by rfl⟩
  show ((headers.map (fun h => dictGet TEMPLATE_TO_KEY h)).map _)[i]? = _
  rw [List.map_map, List.getElem?_map]
  rfl

/-- C1 is a code bug: `append_row_to_template` reloads the pristine
template on every call and overwrites the output file with it, so earlier
appended rows are lost.  Concretely, processing TWO emails (template header
`TIN`, completion `{"tin": "7"}` for both) leaves the output holding only
ONE data row instead of one row per email. -/
theorem spec_c1_rows_lost :
    processEmlFiles (fun _ => Except.ok "") (fun _ => "\x7b\"tin\": \"7\"\x7d")
        [["TIN"]] ["a.eml", "b.eml"] =
      Except.ok [["TIN"], ["7"]] := by rfl

/-- C7 counterexample: when the first email's source is unreadable, the
batch aborts with the error instead of skipping the item and processing the
remaining email — no row is appended at all. -/
theorem spec_c7_counterexample :
    processEmlFiles (fun p => if p == "a.eml" then Except.error "unreadable" else Except.ok "")
        (fun _ => "") [["TIN"]] ["a.eml", "b.eml"] =
      Except.error "unreadable" := by rfl

/-- C7 amended: a failure of a single email's pipeline (here: the
email-to-text collaborator `load_eml_text` raising) is NOT caught by
`process_eml_files`; the exception propagates, the item is not skipped, and
the remaining emails are not processed. -/
theorem spec_c7_amended (load : String → Except String String) (pipe : String → String)
    (template : Workbook) (p : String) (rest : List String) (e : String)
    (h : load p = Except.error e) :
    processEmlFiles load pipe template (p :: rest) = Except.error e := by
  simp [processEmlFiles, processLoop, h]

/-- Witness for the amended C7 at a concrete always-failing loader. -/
theorem spec_c7_amended_witness :
    processEmlFiles (fun _ => Except.error "boom") (fun _ => "") [["TIN"]] ["e1", "e2"] =
      Except.error "boom" :=
  spec_c7_amended (fun _ => Except.error "boom") (fun _ => "") [["TIN"]] "e1" ["e2"] "boom" rfl

/-- C9: the Prompt Builder is a pure function of the email text (so
determinism is immediate from the embedding), and the produced prompt
contains the full email text verbatim, the sentinel value, and the
serialized schema as contiguous substrings — no truncation. -/
theorem spec_c9_prompt_contains (t : String) :
    (∃ x y, makePrompt t = x ++ t ++ y) ∧
      (∃ x y, makePrompt t = x ++ sentinel ++ y) ∧
      ∃ x y, makePrompt t = x ++ schemaText ++ y := by
  refine ⟨⟨promptA ++ schemaText ++ promptB, promptC, by rfl⟩,
    ⟨promptA1, promptA2 ++ schemaText ++ promptB ++ t ++ promptC, ?_⟩,
    ⟨promptA, promptB ++ t ++ promptC, ?_⟩⟩
  · rw [makePrompt, promptA_split]
    simp [String.append_assoc]
  · rw [makePrompt]
    simp [String.append_assoc]

theorem pyFind_drop {c : Char} : ∀ {cs : List Char} {i : Nat},
    pyFind c cs = some i → ∃ t, cs.drop i = c :: t := by
  intro cs
  induction cs with
  | nil => intro i h; simp [pyFind] at h
  | cons x xs ih =>
    intro i h
    rw [pyFind] at h
    by_cases hx : x = c
    · simp [hx] at h
      subst hx h
      exact ⟨xs, rfl⟩
    · simp [hx] at h
      obtain ⟨j, hj, hji⟩ := h
      obtain ⟨t, ht⟩ := ih hj
      exact ⟨t, by simpa [← hji] using ht⟩

theorem skipWs_cons_nws {c : Char} {t : List Char} (h : isWs c = false) :
    skipWs (c :: t) = c :: t := by
  simp [skipWs, List.dropWhile_cons, h]

theorem pValStep_obj_of_head {pm pe} {t : List Char} {v : Json} {r : List Char}
    (h : pValStep pm pe ('{' :: t) = some (v, r)) : v.isObjB = true := by
  have h2 : (match skipWs t with
      | [] => none
      | d :: r2 =>
        if d = '}' then some (Json.obj [], r2)
        else Option.map (fun q => (Json.obj q.1, q.2)) (pm (d :: r2))) = some (v, r) := h
  rcases hsw : skipWs t with _ | ⟨d, r2⟩ <;> rw [hsw] at h2
  · simp at h2
  · have h3 : (if d = '}' then some (Json.obj [], r2)
        else Option.map (fun q => (Json.obj q.1, q.2)) (pm (d :: r2))) = some (v, r) := h2
    by_cases hd : d = '}'
    · rw [if_pos hd, Option.some.injEq, Prod.mk.injEq] at h3
      exact h3.1 ▸ rfl
    · rw [if_neg hd] at h3
      rcases hpm : pm (d :: r2) with _ | q <;> rw [hpm] at h3
      · simp at h3
      · rw [Option.map_some', Option.some.injEq, Prod.mk.injEq] at h3
        exact h3.1 ▸ rfl

theorem jsonLoads_obj_of_head {t : List Char} {v : Json}
    (h : jsonLoadsChars ('{' :: t) = some v) : v.isObjB = true := by
  have h2 : (match pValStep ((parsers (t.length + 1)).2.1) ((parsers (t.length + 1)).2.2)
        ('{' :: t) with
      | some (v0, rest) => if (skipWs rest).isEmpty then some v0 else none
      | none => none) = some v := h
  rcases hp : pValStep ((parsers (t.length + 1)).2.1) ((parsers (t.length + 1)).2.2) ('{' :: t)
    with _ | ⟨v2, r2⟩ <;> rw [hp] at h2
  · simp at h2
  · have h3 : (if (skipWs r2).isEmpty then some v2 else none) = some v := h2
    have hobj := pValStep_obj_of_head hp
    by_cases hr : (skipWs r2).isEmpty
    · rw [if_pos hr, Option.some.injEq] at h3
      exact h3 ▸ hobj
    · rw [if_neg hr] at h3
      simp at h3

theorem replaceSQuotes_cons (c : Char) (t : List Char) :
    replaceSQuotes (c :: t) = (if c = squote then '"' else c) :: replaceSQuotes t := by
  simp [replaceSQuotes]

theorem parseRawSpan_obj_of_head (t : List Char) :
    (parseRawSpan ('{' :: t)).isObjB = true := by
  rw [parseRawSpan]
  rcases h1 : jsonLoadsChars ('{' :: t) with _ | v1
  · rw [replaceSQuotes_cons, if_neg (by decide : ¬ ('{' : Char) = squote)]
    rcases h2 : jsonLoadsChars ('{' :: replaceSQuotes t) with _ | v2
    · rfl
    · exact jsonLoads_obj_of_head h2
  · have hv := jsonLoads_obj_of_head h1
    simp [hv]

/-- C3: the parsing stage of `extract_with_llm` is total (the embedding is
a function, every fallible step being caught) and always returns a mapping,
for every raw completion text — including when the result comes from the
single-quote repair pass, which the code returns without a dict check: a
successful parse of the brace-delimited span necessarily yields a dict. -/
theorem spec_c3_interpreter_total (out : String) : (parseLlmOutput out).isObjB = true := by
  rw [parseLlmOutput]
  rcases h1 : pyFind '{' out.data with _ | s
  · rfl
  · rcases h2 : pyFind '}' out.data with _ | e
    · rfl
    · have h3 : (if e ≤ s then Json.obj []
          else parseRawSpan ((out.data.drop s).take (e + 1 - s))).isObjB = true →
          (match (some s : Option Nat), (some e : Option Nat) with
            | some s, some e =>
              if e ≤ s then Json.obj []
              else parseRawSpan ((out.data.drop s).take (e + 1 - s))
            | _, _ => Json.obj []).isObjB = true := fun x => x
      apply h3
      by_cases hle : e ≤ s
      · rw [if_pos hle]
        rfl
      · rw [if_neg hle]
        obtain ⟨t, ht⟩ := pyFind_drop h1
        have hk : e + 1 - s = (e - s) + 1 := by omega
        rw [ht, hk, List.take_succ_cons]
        exact parseRawSpan_obj_of_head _

/-- C4: the Response Interpreter returns the empty CandidateRecord when the
raw text has no opening brace, no closing brace, or its first closing brace
at or before its first opening brace; otherwise it parses (with repair)
exactly the span from the first opening brace to the first closing brace
inclusive.  Concretely: prose and empty input yield the empty record, a
single-quoted object is recovered by the repair pass, and text with two
objects yields only the first span. -/
theorem spec_c4_span_extraction :
    (∀ out : String, pyFind '{' out.data = none → parseLlmOutput out = Json.obj []) ∧
      (∀ out : String, pyFind '}' out.data = none → parseLlmOutput out = Json.obj []) ∧
      (∀ (out : String) (s e : Nat), pyFind '{' out.data = some s →
        pyFind '}' out.data = some e → e ≤ s → parseLlmOutput out = Json.obj []) ∧
      (∀ (out : String) (s e : Nat), pyFind '{' out.data = some s →
        pyFind '}' out.data = some e → s < e →
        parseLlmOutput out = parseRawSpan ((out.data.drop s).take (e + 1 - s))) ∧
      parseLlmOutput "no json here" = Json.obj [] ∧
      parseLlmOutput "" = Json.obj [] ∧
      parseLlmOutput "\x7b\x27a\x27: 1\x7d" = Json.obj [("a", Json.num 1)] ∧
      parseLlmOutput "x \x7b\"a\": 1\x7d and \x7b\"b\": 2\x7d" = Json.obj [("a", Json.num 1)] := by
  refine ⟨fun out h1 => ?_, fun out h2 => ?_, fun out s e h1 h2 hle => ?_,
    fun out s e h1 h2 hlt => ?_, by rfl, by rfl, by rfl, by rfl⟩
  · rw [parseLlmOutput, h1]
  · rw [parseLlmOutput, h2]
    rcases h1 : pyFind '{' out.data with _ | s <;> rfl
  · rw [parseLlmOutput, h1, h2]
    exact if_pos hle
  · rw [parseLlmOutput, h1, h2]
    exact if_neg (by omega)

/-- Witness for C4 at a concrete three-character span. -/
theorem spec_c4_span_extraction_witness :
    parseLlmOutput "a\x7bb\x7dc" = parseRawSpan ((("a\x7bb\x7dc" : String).data.drop 1).take 3) :=
  spec_c4_span_extraction.2.2.2.1 "a\x7bb\x7dc" 1 3 rfl rfl (by decide)

theorem stripChars_eq_nil_all_space {cs : List Char} (h : stripChars cs = [])
    {c : Char} (hc : c ∈ cs) : isPySpace c = true := by
  rw [stripChars, List.reverse_eq_nil_iff] at h
  have hall : ∀ a ∈ (cs.dropWhile isPySpace).reverse, isPySpace a = true := by
    intro a ha
    exact List.dropWhile_eq_nil_iff.mp h a ha
  have hall2 : ∀ a ∈ cs.dropWhile isPySpace, isPySpace a = true := by
    intro a ha
    exact hall a (List.mem_reverse.mpr ha)
  rcases List.mem_append.mp ((List.takeWhile_append_dropWhile (p := isPySpace) (l := cs)) ▸ hc)
    with hmem | hmem
  · exact List.mem_takeWhile_imp hmem
  · exact hall2 c hmem

theorem pystrip_ne_empty {s : String} {c : Char} (hc : c ∈ s.data)
    (hns : isPySpace c = false) : pystrip s ≠ "" := by
  intro h
  have hnil : stripChars s.data = [] := by
    have : (pystrip s).data = ("" : String).data := by rw [h]
    simpa [pystrip] using this
  rw [stripChars_eq_nil_all_space hnil hc] at hns
  exact absurd hns (by simp)

theorem natToDec_ne_nil (n : Nat) : natToDec n ≠ [] := by
  rw [natToDec]
  split
  · simp
  · simp

theorem natToDec_no_space (n : Nat) : ∀ c ∈ natToDec n, isPySpace c = false := by
  induction n using Nat.strong_induction_on with
  | _ n ih =>
    intro c hc
    rw [natToDec] at hc
    split at hc
    · next h =>
      rw [List.mem_singleton] at hc
      subst hc
      interval_cases n <;> decide
    · next h =>
      rcases List.mem_append.mp hc with hm | hm
      · exact ih (n / 10) (Nat.div_lt_self (by omega) (by omega)) c hm
      · rw [List.mem_singleton] at hm
        subst hm
        have h10 : n % 10 < 10 := Nat.mod_lt _ (by omega)
        set m := n % 10 with hm2
        interval_cases m <;> decide

theorem pystrip_pyStr_num_ne_empty (n : Int) : pystrip (pyStr (Json.num n)) ≠ "" := by
  have hrepr : pyStr (Json.num n) = String.mk (intToDecChars n) := by
    simp [pyStr, pyRepr]
  rw [hrepr]
  cases n with
  | ofNat m =>
    obtain ⟨c, hc⟩ := List.exists_mem_of_ne_nil _ (natToDec_ne_nil m)
    exact pystrip_ne_empty (c := c) hc (natToDec_no_space m c hc)
  | negSucc m =>
    exact pystrip_ne_empty (c := '-') (List.mem_cons_self _ _) (by decide)

theorem pystrip_pyStr_obj_ne_empty (fs : List (String × Json)) :
    pystrip (pyStr (Json.obj fs)) ≠ "" := by
  have hrepr : pyStr (Json.obj fs) =
      "\x7b" ++ String.intercalate ", " (pyReprFields fs) ++ "\x7d" := by
    simp [pyStr, pyRepr]
  rw [hrepr]
  refine pystrip_ne_empty (c := '\x7b') ?_ (by decide)
  rw [String.data_append, String.data_append]
  exact List.mem_append.mpr (Or.inl (List.mem_append.mpr (Or.inl (by decide))))

theorem pystrip_pyStr_bool_ne_empty (b : Bool) : pystrip (pyStr (Json.bool b)) ≠ "" := by
  have hrepr : pyStr (Json.bool b) = if b then "True" else "False" := by
    simp [pyStr, pyRepr]
  rw [hrepr]
  cases b
  · decide
  · decide

/-- C2 counterexample: a CandidateRecord whose `tin` field is the empty
list normalizes `tin` to the empty string — NOT to a non-empty string and
not to the sentinel — because the list branch joins with a comma and is
never re-checked for emptiness. -/
theorem spec_c2_counterexample :
    ("tin", "") ∈ normalizeRecord (Json.obj [("tin", Json.arr [])]) ∧
      dictGet (normalizeRecord (Json.obj [("tin", Json.arr [])])) "tin" = some "" := by
  constructor
  · decide
  · rfl

/-- C2 amended: every value of the normalized record is a (non-null)
string; every absent, null, or empty-after-trim string value becomes the
sentinel; and every value is non-empty UNLESS the candidate value was a
list, whose comma-join may be empty (e.g. for the empty list). -/
theorem spec_c2_amended_totality (c : Json) (k : String) (v : String)
    (hmem : (k, v) ∈ normalizeRecord c) :
    ((getV c k = none ∨ getV c k = some Json.null ∨
        (∃ s, getV c k = some (Json.str s) ∧ pystrip s = "")) → v = sentinel) ∧
      (v = "" → ∃ l, getV c k = some (Json.arr l)) := by
  have hv : v = normValue c k := by
    rw [normalizeRecord] at hmem
    obtain ⟨k2, hk2, heq⟩ := List.mem_map.mp hmem
    have hpair : k2 = k ∧ normValue c k2 = v := (Prod.mk.injEq _ _ _ _).mp heq
    rw [← hpair.1, hpair.2]
  subst hv
  constructor
  · rintro (h | h | ⟨s, hs, hstrip⟩)
    · rw [normValue, h]
    · rw [normValue, h]
    · rw [normValue, hs]
      simp [hstrip]
  · intro hemp
    rcases hg : getV c k with _ | w
    · rw [normValue, hg] at hemp
      exact absurd hemp (by decide)
    · cases w with
      | null =>
        rw [normValue, hg] at hemp
        exact absurd hemp (by decide)
      | bool b =>
        rw [normValue, hg] at hemp
        exact absurd hemp (pystrip_pyStr_bool_ne_empty b)
      | num n =>
        rw [normValue, hg] at hemp
        exact absurd hemp (pystrip_pyStr_num_ne_empty n)
      | str s =>
        rw [normValue, hg] at hemp
        have hemp2 : (if pystrip s = "" then sentinel else pystrip s) = "" := hemp
        by_cases hstrip : pystrip s = ""
        · rw [if_pos hstrip] at hemp2
          exact absurd hemp2 (by decide)
        · rw [if_neg hstrip] at hemp2
          exact absurd hemp2 hstrip
      | arr l => exact ⟨l, rfl⟩
      | obj fs =>
        rw [normValue, hg] at hemp
        exact absurd hemp (pystrip_pyStr_obj_ne_empty fs)

/-- Witness for the amended C2 at the empty CandidateRecord and the `tin`
field: the missing field normalizes to the sentinel. -/
theorem spec_c2_amended_totality_witness :
    normValue (Json.obj []) "tin" = sentinel :=
  (spec_c2_amended_totality (Json.obj []) "tin" (normValue (Json.obj []) "tin")
    (by decide)).1 (Or.inl rfl)

theorem char_eq_of_toNat_eq {a b : Char} (h : a.toNat = b.toNat) : a = b :=
  Char.ext (UInt32.ext h)

theorem listLeChar_total : ∀ as bs : List Char, listLeChar as bs = true ∨ listLeChar bs as = true
  | [], _ => Or.inl rfl
  | _ :: _, [] => Or.inr rfl
  | a :: as, b :: bs => by
    rw [listLeChar, listLeChar]
    rcases Nat.lt_trichotomy a.toNat b.toNat with h | h | h
    · left
      rw [if_pos h]
    · rw [if_neg (by omega), if_neg (by omega), if_neg (by omega), if_neg (by omega)]
      exact listLeChar_total as bs
    · right
      rw [if_pos h]

theorem listLeChar_trans : ∀ as bs cs : List Char, listLeChar as bs = true →
    listLeChar bs cs = true → listLeChar as cs = true
  | [], _, _, _, _ => rfl
  | _ :: _, [], _, h1, _ => by simp [listLeChar] at h1
  | _ :: _, _ :: _, [], _, h2 => by simp [listLeChar] at h2
  | a :: as, b :: bs, c :: cs, h1, h2 => by
    rw [listLeChar] at h1 h2 ⊢
    rcases Nat.lt_trichotomy a.toNat b.toNat with hab | hab | hab <;>
      rcases Nat.lt_trichotomy b.toNat c.toNat with hbc | hbc | hbc
    · rw [if_pos (by omega)]
    · rw [if_pos (by omega)]
    · rw [if_neg (by omega), if_pos (by omega)] at h2
      exact absurd h2 (by simp)
    · rw [if_pos (by omega)]
    · rw [if_neg (by omega), if_neg (by omega)] at h1 h2
      rw [if_neg (by omega), if_neg (by omega)]
      exact listLeChar_trans as bs cs h1 h2
    · rw [if_neg (by omega), if_pos (by omega)] at h2
      exact absurd h2 (by simp)
    · rw [if_neg (by omega), if_pos (by omega)] at h1
      exact absurd h1 (by simp)
    · rw [if_neg (by omega), if_pos (by omega)] at h1
      exact absurd h1 (by simp)
    · rw [if_neg (by omega), if_pos (by omega)] at h1
      exact absurd h1 (by simp)

theorem listLeChar_antisymm : ∀ as bs : List Char, listLeChar as bs = true →
    listLeChar bs as = true → as = bs
  | [], [], _, _ => rfl
  | [], _ :: _, _, h2 => by simp [listLeChar] at h2
  | _ :: _, [], h1, _ => by simp [listLeChar] at h1
  | a :: as, b :: bs, h1, h2 => by
    rw [listLeChar] at h1 h2
    rcases Nat.lt_trichotomy a.toNat b.toNat with hab | hab | hab
    · rw [if_neg (by omega), if_pos (by omega)] at h2
      exact absurd h2 (by simp)
    · rw [if_neg (by omega), if_neg (by omega)] at h1 h2
      rw [char_eq_of_toNat_eq hab, listLeChar_antisymm as bs h1 h2]
    · rw [if_neg (by omega), if_pos (by omega)] at h1
      exact absurd h1 (by simp)

/-- C10: for a directory input the processed paths are the `*.eml`-matching
entries in sorted lexicographic (code-point) order — the result is
invariant under any permutation of the filesystem enumeration, it is
sorted, and it holds exactly the matching entries; a single-file input is
accepted exactly when its suffix lowercases to `.eml`. -/
theorem spec_c10_path_collection :
    (∀ l1 l2 : List String, l1.Perm l2 →
        collectEmlPaths (.dir l1) = collectEmlPaths (.dir l2)) ∧
      (∀ l res : List String, collectEmlPaths (.dir l) = Except.ok res →
        List.Sorted (fun a b => strLe a b = true) res ∧
          ∀ x, x ∈ res ↔ x ∈ l ∧ ".eml".data.isSuffixOf x.data = true) ∧
      (∀ n : String, (∃ ps, collectEmlPaths (.file n) = Except.ok ps) ↔
        pyLower (pySuffix n) = ".eml") := by
  haveI : IsTotal String (fun a b => strLe a b = true) :=
    ⟨fun a b => listLeChar_total a.data b.data⟩
  haveI : IsTrans String (fun a b => strLe a b = true) :=
    ⟨fun a b c => listLeChar_trans a.data b.data c.data⟩
  haveI : IsAntisymm String (fun a b => strLe a b = true) := ⟨by
    intro a b h1 h2
    cases a
    cases b
    exact congrArg String.mk (listLeChar_antisymm _ _ h1 h2)⟩
  refine ⟨fun l1 l2 hp => ?_, fun l res h => ?_, fun n => ?_⟩
  · have heq : sortedEmlMatches l1 = sortedEmlMatches l2 :=
      List.eq_of_perm_of_sorted
        ((List.perm_insertionSort _ _).trans
          ((hp.filter _).trans (List.perm_insertionSort _ _).symm))
        (List.sorted_insertionSort _ _) (List.sorted_insertionSort _ _)
    simp only [collectEmlPaths, heq]
  · have hres : res = sortedEmlMatches l := by
      by_cases he : (sortedEmlMatches l).isEmpty
      · simp only [collectEmlPaths, if_pos he] at h
        exact absurd h (by simp)
      · simp only [collectEmlPaths, if_neg he] at h
        injection h with h2
        exact h2.symm
    constructor
    · rw [hres]
      exact List.sorted_insertionSort _ _
    · intro x
      rw [hres, sortedEmlMatches, List.mem_insertionSort, List.mem_filter]
  · constructor
    · rintro ⟨ps, hps⟩
      by_cases hc : pyLower (pySuffix n) = ".eml"
      · exact hc
      · simp only [collectEmlPaths, if_neg hc] at hps
        exact absurd hps (by simp)
    · intro hc
      exact ⟨[n], by simp only [collectEmlPaths, if_pos hc]⟩

/-- Witness for C10: permutation invariance and file acceptance at
concrete inputs. -/
theorem spec_c10_path_collection_witness :
    collectEmlPaths (.dir ["b.eml", "x.txt", "a.eml"]) =
      collectEmlPaths (.dir ["a.eml", "b.eml", "x.txt"]) :=
  spec_c10_path_collection.1 ["b.eml", "x.txt", "a.eml"] ["a.eml", "b.eml", "x.txt"] (by decide)
